import Mathlib

/-!
Verification of the `dbug` logging library (`src/lib.rs`).

Strings are modelled as `List Char` (the Rust code only ever slices at
ASCII characters `-`, `*`, `#`, `:` in the places modelled here, so byte
slicing and character slicing agree). The process environment variable
`DEBUG` is modelled as an explicit `Option (List Char)` argument
(`none` = variable absent / unreadable), and wall-clock instants as `Nat`
nanosecond counts, matching `std::time::Instant` precision.
-/

/-- `str::ends_with("*")`: the last character is `'*'`. -/
def endsStar (l : List Char) : Bool :=
  l.getLast? == some '*'

/-- The negation scan of `Logger::should_log` (lib.rs lines 168-179), for a
single rule token `f`: `f` starts with `'-'` and either (non-wildcard form)
`f[1..]` equals the label, or (wildcard form) `f` ends with `'*'` and the
label starts with `f[1..f.len()-1]`. -/
def negMatches (f label : List Char) : Bool :=
  (f.head? == some '-' && !endsStar f && f.tail == label) ||
  (f.head? == some '-' && endsStar f && (f.tail.dropLast).isPrefixOf label)

/-- The positive scan of `Logger::should_log` (lib.rs lines 181-189), for a
single rule token `f`: the label equals `f`, or `f` ends with `'*'` and the
label starts with `f[0..f.len()-1]`, or `f` is the bare `"*"`. -/
def posMatches (f label : List Char) : Bool :=
  label == f ||
  (endsStar f && (f.dropLast).isPrefixOf label) ||
  f == ['*']

/-- `Logger::should_log` (lib.rs lines 166-192): the first loop returns
`false` as soon as a negation rule matches; otherwise the second loop
returns `true` as soon as a positive rule matches; otherwise `false`. -/
def should_log (rules : List (List Char)) (raw_label : List Char) : Bool :=
  if rules.any (fun f => negMatches f raw_label) then false
  else rules.any (fun f => posMatches f raw_label)

/-- `str::trim` (used in `parse_filter`): strip leading and trailing
whitespace. Rust uses the Unicode `White_Space` property; `Char.isWhitespace`
agrees with it on every character appearing in this development. -/
def trim (l : List Char) : List Char :=
  (l.dropWhile Char.isWhitespace).rdropWhile Char.isWhitespace

/-- `parse_filter` (lib.rs lines 77-97), with the `DEBUG` environment
variable made an explicit argument (`none` for `Err(_)`): if the string
contains a space, split on spaces, trim each piece and drop empties; else
if it contains a comma, do the same with commas; else the whole string is
the single rule, kept verbatim. -/
def parse_filter (debug : Option (List Char)) : List (List Char) :=
  match debug with
  | some d =>
    if d.contains ' ' then
      (((d.splitOn ' ').map trim).filter (fun s => !s.isEmpty))
    else if d.contains ',' then
      (((d.splitOn ',').map trim).filter (fun s => !s.isEmpty))
    else [d]
  | none => []

/-- The fixed 76-entry palette `COLORS` (lib.rs lines 9-20). -/
def COLORS : List (List Char) :=
  ["#0000CC", "#0000FF", "#0033CC", "#0033FF", "#0066CC", "#0066FF", "#0099CC", "#0099FF",
   "#00CC00", "#00CC33", "#00CC66", "#00CC99", "#00CCCC", "#00CCFF", "#3300CC", "#3300FF",
   "#3333CC", "#3333FF", "#3366CC", "#3366FF", "#3399CC", "#3399FF", "#33CC00", "#33CC33",
   "#33CC66", "#33CC99", "#33CCCC", "#33CCFF", "#6600CC", "#6600FF", "#6633CC", "#6633FF",
   "#66CC00", "#66CC33", "#9900CC", "#9900FF", "#9933CC", "#9933FF", "#99CC00", "#99CC33",
   "#CC0000", "#CC0033", "#CC0066", "#CC0099", "#CC00CC", "#CC00FF", "#CC3300", "#CC3333",
   "#CC3366", "#CC3399", "#CC33CC", "#CC33FF", "#CC6600", "#CC6633", "#CC9900", "#CC9933",
   "#CCCC00", "#CCCC33", "#FF0000", "#FF0033", "#FF0066", "#FF0099", "#FF00CC", "#FF00FF",
   "#FF3300", "#FF3333", "#FF3366", "#FF3399", "#FF33CC", "#FF33FF", "#FF6600", "#FF6633",
   "#FF9900", "#FF9933", "#FFCC00", "#FFCC33"].map String.data

/-- `2 ^ 64`, the modulus for the 64-bit arithmetic of `DefaultHasher`. -/
def two64 : Nat := 18446744073709551616

/-- `u64::rotate_left`: both sides of the rotation, OR-ed, truncated to
64 bits (`x` is assumed already below `2 ^ 64`). -/
def rotl64 (x r : Nat) : Nat :=
  ((x <<< r) ||| (x >>> (64 - r))) % two64

/-- The four 64-bit state words of a SipHash hasher. -/
structure SipState where
  v0 : Nat
  v1 : Nat
  v2 : Nat
  v3 : Nat
deriving DecidableEq

/-- One SipHash round, as in Rust `std`'s private `sip.rs`. Additions are
`wrapping_add`, i.e. modulo `2 ^ 64`. -/
def sipRound (s : SipState) : SipState :=
  let v0 := (s.v0 + s.v1) % two64
  let v1 := rotl64 s.v1 13
  let v1 := v1 ^^^ v0
  let v0 := rotl64 v0 32
  let v2 := (s.v2 + s.v3) % two64
  let v3 := rotl64 s.v3 16
  let v3 := v3 ^^^ v2
  let v0 := (v0 + v3) % two64
  let v3 := rotl64 v3 21
  let v3 := v3 ^^^ v0
  let v2 := (v2 + v1) % two64
  let v1 := rotl64 v1 17
  let v1 := v1 ^^^ v2
  let v2 := rotl64 v2 32
  { v0 := v0, v1 := v1, v2 := v2, v3 := v3 }

/-- Little-endian interpretation of a byte list as an unsigned integer. -/
def le64 (bs : List Nat) : Nat :=
  bs.foldr (fun b acc => b + 256 * acc) 0

/-- The compression loop of SipHash-1-3: absorb each full 8-byte
little-endian word with one round, returning the final state and the
remaining (at most 7) tail bytes. -/
def sipBlocks (s : SipState) : List Nat → SipState × List Nat
  | b0 :: b1 :: b2 :: b3 :: b4 :: b5 :: b6 :: b7 :: rest =>
    let m := le64 [b0, b1, b2, b3, b4, b5, b6, b7]
    let s1 := sipRound { s with v3 := s.v3 ^^^ m }
    sipBlocks { s1 with v0 := s1.v0 ^^^ m } rest
  | rest => (s, rest)

/-- SipHash-1-3 of a byte string with both keys zero — the algorithm of
`std::hash::DefaultHasher::new()` (used via `DefaultHasher` in
`xterm_color_index_for_string`, lib.rs lines 22-25): absorb full words,
then the final word carrying the length in its top byte, then three
finalization rounds. -/
def sipHash13 (msg : List Nat) : Nat :=
  let s0 : SipState :=
    { v0 := 0x736f6d6570736575, v1 := 0x646f72616e646f6d,
      v2 := 0x6c7967656e657261, v3 := 0x7465646279746573 }
  let bt := sipBlocks s0 msg
  let s := bt.1
  let b := ((msg.length % 256) <<< 56) ||| le64 bt.2
  let s := sipRound { s with v3 := s.v3 ^^^ b }
  let s := { s with v0 := s.v0 ^^^ b }
  let s := { s with v2 := s.v2 ^^^ 0xff }
  let s := sipRound (sipRound (sipRound s))
  (s.v0 ^^^ s.v1) ^^^ (s.v2 ^^^ s.v3)

/-- UTF-8 encoding of one character, as `str::as_bytes` exposes it. -/
def utf8Bytes (c : Char) : List Nat :=
  let n := c.toNat
  if n < 128 then [n]
  else if n < 2048 then [192 ||| (n >>> 6), 128 ||| (n &&& 63)]
  else if n < 65536 then
    [224 ||| (n >>> 12), 128 ||| ((n >>> 6) &&& 63), 128 ||| (n &&& 63)]
  else
    [240 ||| (n >>> 18), 128 ||| ((n >>> 12) &&& 63),
     128 ||| ((n >>> 6) &&& 63), 128 ||| (n &&& 63)]

/-- `input.hash(&mut hasher); hasher.finish()` for a `&str` and a fresh
`DefaultHasher`: SipHash-1-3 over the UTF-8 bytes followed by the `0xff`
terminator byte that `Hash for str` appends. -/
def defaultHashStr (s : List Char) : Nat :=
  sipHash13 ((s.map utf8Bytes).flatten ++ [0xff])

/-- Value of one hexadecimal digit, upper or lower case. -/
def hexDigitVal (c : Char) : Option Nat :=
  if '0' ≤ c ∧ c ≤ '9' then some (c.toNat - '0'.toNat)
  else if 'a' ≤ c ∧ c ≤ 'f' then some (c.toNat - 'a'.toNat + 10)
  else if 'A' ≤ c ∧ c ≤ 'F' then some (c.toNat - 'A'.toNat + 10)
  else none

/-- `u8::from_str_radix(s, 16)`: an optional leading `+`, then at least one
hex digit, with the result required to fit in a `u8`. -/
def u8_from_str_radix (s : List Char) : Option Nat :=
  let t := if s.head? == some '+' then s.tail else s
  match t with
  | [] => none
  | _ =>
    (t.foldl (fun acc c =>
        acc.bind (fun a => (hexDigitVal c).map (fun d => a * 16 + d)))
      (some 0)).bind
      (fun v => if v < 256 then some v else none)

/-- `scale_to_ansi` (lib.rs lines 66-75): bucket a channel value into the
six bands of the 6x6x6 color cube. -/
def scale_to_ansi (value : Nat) : Nat :=
  if value ≤ 47 then 0
  else if value ≤ 114 then 1
  else if value ≤ 154 then 2
  else if value ≤ 194 then 3
  else if value ≤ 234 then 4
  else 5

/-- `rgb_to_ansi256` (lib.rs lines 46-64): grayscale ramp when `r=g=b`,
otherwise the 6x6x6 cube. All divisions truncate as in Rust. -/
def rgb_to_ansi256 (r g b : Nat) : Nat :=
  if r = g ∧ g = b then
    if r < 8 then 16
    else if r > 248 then 231
    else 232 + (r - 8) * 24 / 247
  else
    16 + 36 * scale_to_ansi r + 6 * scale_to_ansi g + scale_to_ansi b

/-- `ansi_256_from_hex` (lib.rs lines 36-44): strip all leading `#`, parse
the three two-digit channel slices, and convert. `none` models the `Err`
return; an input with fewer than six characters after the `#`s would make
the Rust byte-slicing panic, which is also modelled as `none` (every actual
input comes from the 76-entry palette and has exactly six). -/
def ansi_256_from_hex (hex : List Char) : Option Nat :=
  let h := hex.dropWhile (fun c => c == '#')
  if 6 ≤ h.length then
    match u8_from_str_radix (h.take 2),
          u8_from_str_radix ((h.drop 2).take 2),
          u8_from_str_radix ((h.drop 4).take 2) with
    | some r, some g, some b => some (rgb_to_ansi256 r g b)
    | _, _, _ => none
  else none

/-- `xterm_color_index_for_string` (lib.rs lines 22-30): hash the label,
reduce modulo the palette size, convert the chosen entry, and fall back to
color `123` if conversion failed. -/
def xterm_color_index_for_string (input : List Char) : Nat :=
  let hex_index := defaultHashStr input % COLORS.length
  let hex := COLORS.getD hex_index []
  (ansi_256_from_hex hex).getD 123

/-- `colorize` (lib.rs lines 32-34): wrap `pre` in the 256-color foreground
escape sequence and a style reset. -/
def colorize (color : Nat) (pre : List Char) : List Char :=
  "\x1b[1;38;5;".data ++ Nat.toDigits 10 color ++ 'm' :: pre ++ "\x1b[0m".data

/-- The `Logger` struct (lib.rs lines 99-105). `Cell<Option<Instant>>` is
modelled as an `Option Nat` field (nanoseconds since an arbitrary epoch)
threaded explicitly through `log`. -/
structure Logger where
  raw_label : List Char
  label : List Char
  filter : List (List Char)
  color : Nat
  last_log : Option Nat
deriving DecidableEq

/-- `Logger::new` (lib.rs lines 115-128), with the `DEBUG` environment
variable passed explicitly (read once, here). -/
def Logger.new (label : List Char) (debug : Option (List Char)) : Logger :=
  let raw_label := label
  let color := xterm_color_index_for_string raw_label
  let colorized := colorize color raw_label
  { color := color, raw_label := raw_label, label := colorized,
    filter := parse_filter debug, last_log := none }

/-- `Logger::log` (lib.rs lines 137-154). The two `Instant::now()` calls
are passed explicitly: `now1` is the one taken inside the elapsed-time
branch, `now2` the one taken after printing and stored. Returns the line
written to stdout (without the trailing newline), if any, and the updated
logger. `Instant` subtraction and `as_millis` truncate, which `Nat`
subtraction and division mirror for a monotone clock. -/
def Logger.log (l : Logger) (message : List Char) (now1 now2 : Nat) :
    Option (List Char) × Logger :=
  if !should_log l.filter l.raw_label then (none, l)
  else
    let ms_diff :=
      match l.last_log with
      | some last =>
        colorize l.color ('+' :: Nat.toDigits 10 ((now1 - last) / 1000000))
      | none => colorize l.color ['+', '0']
    (some (l.label ++ ' ' :: message ++ ' ' :: ms_diff),
     { l with last_log := some now2 })

/-- `Logger::log_fmt` (lib.rs lines 130-135): renders its format arguments
with the host language's formatter and delegates to `log`; the argument
here is the already-rendered message. -/
def Logger.log_fmt (l : Logger) (message : List Char) (now1 now2 : Nat) :
    Option (List Char) × Logger :=
  l.log message now1 now2

/-- `Logger::extend` (lib.rs lines 156-158): a brand-new logger for the
label `raw_label + ":" + extension`; `Logger::new` re-reads the filter
specification, passed explicitly. -/
def Logger.extend (l : Logger) (extension : List Char)
    (debug : Option (List Char)) : Logger :=
  Logger.new (l.raw_label ++ ':' :: extension) debug

/-- Helper: a predicate that drops nothing from the front of `x` also drops
nothing from the front of any prefix of `x`. -/
theorem dropWhile_eq_self_of_front {α : Type} (p : α → Bool) (y x : List α)
    (hx : List.dropWhile p x = x) (hy : y <+: x) :
    List.dropWhile p y = y := by
  cases y with
  | nil => rfl
  | cons a r =>
    obtain ⟨t, ht⟩ := hy
    have hpa : p a = false := by
      cases hpa : p a
      · rfl
      · exfalso
        rw [← ht] at hx
        simp only [List.cons_append, List.dropWhile_cons, hpa, if_true] at hx
        have hle := (List.dropWhile_suffix p (l := r ++ t)).length_le
        rw [hx] at hle
        simp only [List.length_cons] at hle
        omega
    simp [List.dropWhile_cons, hpa]

/-- Helper: `trim` is idempotent. -/
theorem trim_idem (l : List Char) : trim (trim l) = trim l := by
  unfold trim
  rw [dropWhile_eq_self_of_front Char.isWhitespace _ _
        (List.dropWhile_idempotent _ _) (List.rdropWhile_prefix _ _)]
  exact List.rdropWhile_idempotent _ _

/-- Claim C1: negation precedence — if any negation rule matches the label
(exact equality after stripping the leading `-` for a non-wildcard pattern,
or prefix match after stripping the leading `-` and the trailing `*` for a
wildcard pattern), then `should_log` returns `false`, regardless of any
positive rule. -/
theorem negation_wins (rules : List (List Char)) (label : List Char)
    (h : ∃ f, f ∈ rules ∧ negMatches f label = true) :
    should_log rules label = false := by
  have ha : rules.any (fun f => negMatches f label) = true :=
    List.any_eq_true.mpr h
  simp [should_log, ha]

/-- Witness for C1, covering the spec's concrete instance: rules
`["-b", "a", "b"]` against label `"b"` yield `false`. -/
theorem negation_wins_witness :
    negMatches "-b".data "b".data = true ∧
    should_log ["-b".data, "a".data, "b".data] "b".data = false :=
  ⟨by decide, negation_wins _ _ ⟨"-b".data, by decide, by decide⟩⟩

/-- Claim C2: positive-rule matching semantics — a rule without a trailing
`*` includes the label iff the label equals the pattern exactly; a rule with
a trailing `*` includes the label iff the label starts with the pattern
minus the `*`; and the bare rule `*` includes every label. -/
theorem positive_rule_semantics (p label : List Char) :
    (endsStar p = false → (posMatches p label = true ↔ label = p)) ∧
    (endsStar p = true → (posMatches p label = true ↔ p.dropLast <+: label)) ∧
    posMatches ['*'] label = true := by
  refine ⟨?_, ?_, ?_⟩
  · intro h
    have hp : p ≠ ['*'] := by
      intro e
      subst e
      simp [endsStar] at h
    simp [posMatches, h, hp]
  · intro h
    simp only [posMatches, h, Bool.true_and, Bool.or_eq_true, beq_iff_eq,
      List.isPrefixOf_iff_prefix]
    constructor
    · rintro ((rfl | h2) | rfl)
      · exact List.dropLast_prefix label
      · exact h2
      · exact List.nil_prefix
    · intro h2
      exact Or.inl (Or.inr h2)
  · simp [posMatches]

/-- Witness for C2: rule `"foo*"` includes `"foobar"`; rule `"foo"` does
not include `"foobar"`. -/
theorem positive_rule_semantics_witness :
    posMatches "foo*".data "foobar".data = true ∧
    posMatches "foo".data "foobar".data = false := by
  constructor
  · exact ((positive_rule_semantics "foo*".data "foobar".data).2.1
      (by decide)).mpr (by decide)
  · have h := (positive_rule_semantics "foo".data "foobar".data).1 (by decide)
    rw [Bool.eq_false_iff]
    intro hh
    exact absurd (h.mp hh) (by decide)

/-- Counterexample to claim C3 as stated: with the filter specification
being the empty string, `parse_filter` keeps the whole string as the single
(empty) rule, and the empty label matches it exactly, so `matches` returns
`true` — not `false` for every label. -/
theorem default_deny_counterexample :
    parse_filter (some "".data) = [[]] ∧
    should_log (parse_filter (some "".data)) "".data = true := by
  decide

/-- Claim C3 (amended): with the filter specification absent, `should_log`
returns `false` for every label; with the empty-string specification the
rule list is the single empty rule, and `should_log` returns `false` for
every non-empty label (the empty label itself is the one exception). -/
theorem default_deny_amended :
    (∀ label, should_log (parse_filter none) label = false) ∧
    (∀ label, label ≠ [] → should_log (parse_filter (some "".data)) label = false) := by
  constructor
  · intro label
    rfl
  · intro label h
    simp [should_log, parse_filter, negMatches, posMatches, endsStar, h]

/-- Witness for C3 (amended), at the non-empty label `"x"`. -/
theorem default_deny_amended_witness :
    should_log (parse_filter (some "".data)) "x".data = false :=
  default_deny_amended.2 "x".data (by decide)

/-- Counterexample to claim C4 as stated: in the no-delimiter branch the
whole string is kept as a single token verbatim — the empty spec yields the
empty token (not discarded), and a spec with leading whitespace but no
space or comma yields an untrimmed token. -/
theorem tokenization_counterexample :
    ([] : List Char) ∈ parse_filter (some "".data) ∧
    "\ta".data ∈ parse_filter (some "\ta".data) ∧
    trim "\ta".data ≠ "\ta".data := by
  decide

/-- Claim C4 (amended): splitting chooses spaces over commas over
no-delimiter as claimed, and in the space- and comma-splitting branches
every kept token is trimmed and non-empty; but in the no-delimiter branch
the whole string is kept as the single token verbatim — untrimmed and kept
even when empty. An absent specification yields no rules. -/
theorem tokenization_amended :
    parse_filter none = [] ∧
    (∀ d r, (d.contains ' ' || d.contains ',') = true →
      r ∈ parse_filter (some d) → r ≠ [] ∧ trim r = r) ∧
    (∀ d, d.contains ' ' = false → d.contains ',' = false →
      parse_filter (some d) = [d]) := by
  have key : ∀ (d r : List Char) (sep : Char),
      r ∈ ((d.splitOn sep).map trim).filter (fun s => !s.isEmpty) →
      r ≠ [] ∧ trim r = r := by
    intro d r sep hmem
    obtain ⟨hmap, hpred⟩ := List.mem_filter.mp hmem
    obtain ⟨x, _hx, hxr⟩ := List.mem_map.mp hmap
    refine ⟨?_, ?_⟩
    · intro e
      rw [e] at hpred
      simp at hpred
    · rw [← hxr]
      exact trim_idem x
  refine ⟨rfl, ?_, ?_⟩
  · intro d r hd hr
    simp only [parse_filter] at hr
    split at hr
    next => exact key d r ' ' hr
    next h1 =>
      split at hr
      next => exact key d r ',' hr
      next h2 =>
        exfalso
        have hd2 : d.contains ' ' = true ∨ d.contains ',' = true := by
          simpa using hd
        rcases hd2 with h | h
        · exact absurd h (by simpa using h1)
        · exact absurd h (by simpa using h2)
  · intro d h1 h2
    simp only [parse_filter]
    rw [if_neg (by simpa using h1), if_neg (by simpa using h2)]

/-- Witness for C4 (amended), at the comma-delimited spec `" a ,b,"`. -/
theorem tokenization_amended_witness :
    "a".data ∈ parse_filter (some " a ,b,".data) ∧
    "a".data ≠ [] ∧ trim "a".data = "a".data :=
  ⟨by decide,
   tokenization_amended.2.1 " a ,b,".data "a".data (by decide) (by decide)⟩

/-- Helper: the filter of a freshly constructed logger is the parsed
specification. -/
theorem Logger_new_filter (label : List Char) (debug : Option (List Char)) :
    (Logger.new label debug).filter = parse_filter debug := rfl

/-- Helper: the raw label of a freshly constructed logger. -/
theorem Logger_new_raw_label (label : List Char) (debug : Option (List Char)) :
    (Logger.new label debug).raw_label = label := rfl

/-- Helper: a freshly constructed logger has no stored timestamp. -/
theorem Logger_new_last_log (label : List Char) (debug : Option (List Char)) :
    (Logger.new label debug).last_log = none := rfl

/-- Claim C5: on a permitted log call, a logger with no stored timestamp
emits the fixed zero marker `+0` (colorized), and one with a stored
timestamp `last` emits `+` followed by the whole-millisecond truncation of
`now1 - last`; in both cases every field is preserved except `last_log`,
which is unconditionally overwritten with the emission-time instant
`now2`. -/
theorem log_timing (l : Logger) (msg : List Char) (now1 now2 : Nat)
    (h : should_log l.filter l.raw_label = true) :
    (l.last_log = none →
      l.log msg now1 now2 =
        (some (l.label ++ ' ' :: msg ++ ' ' :: colorize l.color ['+', '0']),
         { l with last_log := some now2 })) ∧
    (∀ last, l.last_log = some last →
      l.log msg now1 now2 =
        (some (l.label ++ ' ' :: msg ++ ' ' ::
            colorize l.color ('+' :: Nat.toDigits 10 ((now1 - last) / 1000000))),
         { l with last_log := some now2 })) := by
  constructor
  · intro hnone
    simp [Logger.log, h, hnone]
  · intro last hlast
    simp [Logger.log, h, hlast]

/-- Witness for C5: first permitted call on a fresh logger for label `"a"`
under spec `"a"`, with the second `Instant::now()` reading `7`. -/
theorem log_timing_witness :
    (Logger.new "a".data (some "a".data)).log "m".data 5 7 =
      (some ((Logger.new "a".data (some "a".data)).label ++ ' ' :: "m".data ++ ' ' ::
          colorize (Logger.new "a".data (some "a".data)).color ['+', '0']),
       { Logger.new "a".data (some "a".data) with last_log := some 7 }) :=
  (log_timing (Logger.new "a".data (some "a".data)) "m".data 5 7
      (by rw [Logger_new_filter, Logger_new_raw_label]; decide)).1
    (Logger_new_last_log "a".data (some "a".data))

/-- Claim C6: when the filter rejects the logger's label, `log` (and
`log_fmt`) is a no-op — no output line and the logger, including its
stored timestamp, is returned exactly unchanged. -/
theorem suppressed_noop (l : Logger) (msg : List Char) (now1 now2 : Nat)
    (h : should_log l.filter l.raw_label = false) :
    l.log msg now1 now2 = (none, l) ∧ l.log_fmt msg now1 now2 = (none, l) := by
  constructor <;> simp [Logger.log, Logger.log_fmt, h]

/-- Witness for C6: label `"c"` under spec `"a"` is rejected and the call
leaves the logger untouched. -/
theorem suppressed_noop_witness :
    (Logger.new "c".data (some "a".data)).log "m".data 3 4 =
      (none, Logger.new "c".data (some "a".data)) :=
  (suppressed_noop (Logger.new "c".data (some "a".data)) "m".data 3 4
      (by rw [Logger_new_filter, Logger_new_raw_label]; decide)).1

/-- Claim C7: `extend` builds a brand-new logger whose raw label is the
parent's raw label, a `:`, and the suffix, with a freshly derived color
(and colorized display label), a freshly parsed filter, and empty timing
state. The parent is taken immutably (`&self` in the source; a pure
argument here), so its fields are untouched. -/
theorem extend_spec (l : Logger) (s : List Char) (debug : Option (List Char)) :
    (l.extend s debug).raw_label = l.raw_label ++ ':' :: s ∧
    (l.extend s debug).color =
      xterm_color_index_for_string (l.raw_label ++ ':' :: s) ∧
    (l.extend s debug).label =
      colorize (xterm_color_index_for_string (l.raw_label ++ ':' :: s))
        (l.raw_label ++ ':' :: s) ∧
    (l.extend s debug).filter = parse_filter debug ∧
    (l.extend s debug).last_log = none :=
  ⟨rfl, rfl, rfl, rfl, rfl⟩

/-- Helper: every palette entry converts successfully and to a code of at
most 255. -/
theorem palette_all :
    ∀ i, i < 76 →
      (ansi_256_from_hex (COLORS.getD i [])).isSome = true ∧
      (ansi_256_from_hex (COLORS.getD i [])).getD 123 ≤ 255 := by
  decide

/-- Helper: the palette index computed for any label is below 76. -/
theorem hex_index_lt (label : List Char) :
    defaultHashStr label % COLORS.length < 76 := by
  have h76 : COLORS.length = 76 := by decide
  rw [h76]
  exact Nat.mod_lt _ (by norm_num)

/-- Claim C8: the label-to-color mapping is a pure function — a Lean `def`
with no state, so two evaluations on the same label are definitionally
equal (the Rust side is deterministic because `DefaultHasher::new()` fixes
both SipHash keys to zero, which `defaultHashStr` embeds) — and its result
always lies in [0, 255]. -/
theorem color_pure_and_in_range (label : List Char) :
    xterm_color_index_for_string label = xterm_color_index_for_string label ∧
    xterm_color_index_for_string label ≤ 255 := by
  refine ⟨rfl, ?_⟩
  have h := (palette_all _ (hex_index_lt label)).2
  simpa [xterm_color_index_for_string] using h

/-- Claim C9: for every label the selected palette entry parses
successfully — the conversion returns `some`, whose value is exactly what
`xterm_color_index_for_string` returns, so the `unwrap_or(123)` fallback
is never the value used; and (second conjunct) had the conversion failed,
the function would return the fixed default 123. -/
theorem palette_conversion_total :
    (∀ label : List Char,
      ansi_256_from_hex (COLORS.getD (defaultHashStr label % COLORS.length) []) =
        some (xterm_color_index_for_string label)) ∧
    (∀ hex : List Char, ansi_256_from_hex hex = none →
      (ansi_256_from_hex hex).getD 123 = 123) := by
  constructor
  · intro label
    have hs := (palette_all _ (hex_index_lt label)).1
    obtain ⟨c, hc⟩ := Option.isSome_iff_exists.mp hs
    have hx : xterm_color_index_for_string label =
        (ansi_256_from_hex
          (COLORS.getD (defaultHashStr label % COLORS.length) [])).getD 123 := rfl
    rw [hc, hx, hc]
    rfl
  · intro hex h
    rw [h]
    rfl

/-- Witness for C9's fallback conjunct, at the unparsable input `"zz"`. -/
theorem palette_conversion_total_witness :
    (ansi_256_from_hex "zz".data).getD 123 = 123 :=
  palette_conversion_total.2 "zz".data (by decide)

/-- Claim C10 (implicit in the code): negation-shaped rules also
participate in the positive scan — if no negation rule excludes the label,
and the label equals a rule token that begins with `-` (marker included),
or starts with the un-stripped prefix of a `-…*` token, then `should_log`
returns `true`. -/
theorem negation_token_positive (rules : List (List Char)) (label : List Char)
    (hneg : rules.any (fun f => negMatches f label) = false)
    (f : List Char) (hf : f ∈ rules) (hdash : f.head? = some '-')
    (hmatch : label = f ∨ (endsStar f = true ∧ f.dropLast.isPrefixOf label = true)) :
    should_log rules label = true := by
  have hpos : posMatches f label = true := by
    rcases hmatch with rfl | ⟨h1, h2⟩
    · simp [posMatches]
    · simp [posMatches, h1, h2]
  have hany : rules.any (fun g => posMatches g label) = true :=
    List.any_eq_true.mpr ⟨f, hf, hpos⟩
  simp [should_log, hneg, hany]

/-- Witness for C10: the single rule `"-b"` positively includes the label
`"-b"` itself. -/
theorem negation_token_positive_witness :
    should_log ["-b".data] "-b".data = true :=
  negation_token_positive ["-b".data] "-b".data (by decide) "-b".data
    (by decide) (by decide) (Or.inl rfl)
